import Mathlib

/-!
Verification development for the blender-launcher-ui application
(src/blender-launcher-ui/src/main.rs), a Bevy/egui tool that lists the
objects inside Blender files and spawns a chosen mesh as a preview object.

The Rust source is shallowly embedded below: resources become structures,
systems become pure functions from their inputs (resources, event lists,
query snapshots) to their outputs (updated resources, emitted events,
queued world commands), `f32` becomes `ℝ`, Rust `String` keeps Lean
`String` with character-level operations, and a Rust panic (`expect`,
out-of-bounds index) becomes `Except.error` carrying the panic message and
the application state at the moment of the abort.
-/

namespace BlenderLauncher

/-! ## Vectors and quaternions (glam `Vec3` / `Quat`, as used by Bevy) -/

/-- Embedding of `glam::Vec3` with real components in place of `f32`. -/
structure Vec3 where
  x : ℝ
  y : ℝ
  z : ℝ

def Vec3.add (a b : Vec3) : Vec3 := ⟨a.x + b.x, a.y + b.y, a.z + b.z⟩

def Vec3.sub (a b : Vec3) : Vec3 := ⟨a.x - b.x, a.y - b.y, a.z - b.z⟩

def Vec3.smul (c : ℝ) (v : Vec3) : Vec3 := ⟨c * v.x, c * v.y, c * v.z⟩

def Vec3.dot (a b : Vec3) : ℝ := a.x * b.x + a.y * b.y + a.z * b.z

def Vec3.cross (a b : Vec3) : Vec3 :=
  ⟨a.y * b.z - a.z * b.y, a.z * b.x - a.x * b.z, a.x * b.y - a.y * b.x⟩

/-- `Vec3::length`: Euclidean norm. -/
noncomputable def Vec3.len (v : Vec3) : ℝ := Real.sqrt (Vec3.dot v v)

def Vec3.zero : Vec3 := ⟨0, 0, 0⟩

/-- Embedding of `glam::Quat` (a rotation quaternion). -/
structure Quat where
  x : ℝ
  y : ℝ
  z : ℝ
  w : ℝ

def Quat.vecPart (q : Quat) : Vec3 := ⟨q.x, q.y, q.z⟩

/-- `Quat::mul_vec3` per glam: `v*(w² − b⋅b) + b*(2(v⋅b)) + (b×v)*(2w)`
with `b` the quaternion's vector part. -/
def Quat.mulVec3 (q : Quat) (v : Vec3) : Vec3 :=
  Vec3.add
    (Vec3.add (Vec3.smul (q.w * q.w - Vec3.dot q.vecPart q.vecPart) v)
      (Vec3.smul (2 * Vec3.dot v q.vecPart) q.vecPart))
    (Vec3.smul (2 * q.w) (Vec3.cross q.vecPart v))

/-! ## Camera data model -/

/-- `bevy::Transform`, restricted to the fields the app touches. -/
structure Transform3 where
  translation : Vec3
  rotation : Quat

/-- The `OccupiedScreenSpace` resource: pixel extents reported by the four
egui panels each frame. -/
structure OccupiedScreenSpace where
  left : ℝ
  top : ℝ
  right : ℝ
  bottom : ℝ

/-- `PerspectiveProjection`, restricted to the fields the app reads. -/
structure PerspectiveProjection where
  fov : ℝ
  aspect : ℝ

/-- The primary window's pixel dimensions. -/
structure WindowDims where
  width : ℝ
  height : ℝ

/-- `const CAMERA_TARGET: Vec3 = Vec3::ZERO;` -/
def CAMERA_TARGET : Vec3 := Vec3.zero

/-- Shallow embedding of `update_camera_transform_system`: given the panel
occupancy, the `OriginalCameraTransform` resource, the window size, the
(asserted perspective) projection and the camera's current transform, it
writes a new translation and leaves the rotation untouched. -/
noncomputable def update_camera_transform_system
    (occupied_screen_space : OccupiedScreenSpace)
    (original_camera_transform : Transform3)
    (window : WindowDims)
    (camera_projection : PerspectiveProjection)
    (transform : Transform3) : Transform3 :=
  let distance_to_target :=
    Vec3.len (Vec3.sub CAMERA_TARGET original_camera_transform.translation)
  let frustum_height := 2 * distance_to_target * Real.tan (camera_projection.fov * 0.5)
  let frustum_width := frustum_height * camera_projection.aspect
  let left_taken := occupied_screen_space.left / window.width
  let right_taken := occupied_screen_space.right / window.width
  let top_taken := occupied_screen_space.top / window.height
  let bottom_taken := occupied_screen_space.bottom / window.height
  { transform with
    translation :=
      Vec3.add original_camera_transform.translation
        (Quat.mulVec3 transform.rotation
          ⟨(right_taken - left_taken) * frustum_width * 0.5,
           (top_taken - bottom_taken) * frustum_height * 0.5,
           0⟩) }

/-- Rotating the zero vector gives the zero vector. -/
lemma Quat.mulVec3_zero (q : Quat) : Quat.mulVec3 q Vec3.zero = Vec3.zero := by
  simp only [Quat.mulVec3, Vec3.zero, Vec3.dot, Vec3.cross, Vec3.smul, Vec3.add]
  congr 1 <;> ring

/-- Adding the zero offset is the identity. -/
lemma Vec3.add_zero (v : Vec3) : Vec3.add v Vec3.zero = v := by
  simp [Vec3.add, Vec3.zero]

/-- C1: with the camera's rotation still equal to its original rotation
(the system itself never writes the rotation), the compensation system sets
the camera position to
`originalPosition + originalOrientation · ((rightPx/w − leftPx/w) · frustumWidth/2,
(topPx/h − bottomPx/h) · frustumHeight/2, 0)` where
`frustumHeight = 2 · ‖target − originalPosition‖ · tan(fov/2)` and
`frustumWidth = frustumHeight · aspectRatio`, and it leaves the camera's
rotation unchanged. -/
theorem camera_offset_formula
    (occ : OccupiedScreenSpace) (orig : Transform3) (window : WindowDims)
    (proj : PerspectiveProjection) (cam : Transform3)
    (h : cam.rotation = orig.rotation) :
    (update_camera_transform_system occ orig window proj cam).translation =
      Vec3.add orig.translation
        (Quat.mulVec3 orig.rotation
          ⟨(occ.right / window.width - occ.left / window.width) *
              (2 * Vec3.len (Vec3.sub CAMERA_TARGET orig.translation) *
                Real.tan (proj.fov / 2) * proj.aspect) / 2,
            (occ.top / window.height - occ.bottom / window.height) *
              (2 * Vec3.len (Vec3.sub CAMERA_TARGET orig.translation) *
                Real.tan (proj.fov / 2)) / 2,
            0⟩) ∧
    (update_camera_transform_system occ orig window proj cam).rotation =
      orig.rotation := by
  refine ⟨?_, ?_⟩
  · show Vec3.add _ _ = _
    rw [h]
    congr 1
    have hfov : proj.fov * 0.5 = proj.fov / 2 := by ring
    rw [hfov]
    congr 1 <;> ring
  · show cam.rotation = orig.rotation
    exact h

/-- Witness for C1 at a concrete configuration (the startup camera pose,
an 800×600 window, 45° fov): the hypothesis `cam.rotation = orig.rotation`
holds by `rfl` when the camera still carries its original transform. -/
theorem camera_offset_formula_witness :
    (update_camera_transform_system ⟨10, 20, 30, 40⟩
        ⟨⟨-2, 2.5, 5⟩, ⟨0, 0, 0, 1⟩⟩ ⟨800, 600⟩ ⟨0.785, 4/3⟩
        ⟨⟨-2, 2.5, 5⟩, ⟨0, 0, 0, 1⟩⟩).translation =
      Vec3.add (⟨-2, 2.5, 5⟩ : Vec3)
        (Quat.mulVec3 ⟨0, 0, 0, 1⟩
          ⟨(30 / 800 - 10 / 800) *
              (2 * Vec3.len (Vec3.sub CAMERA_TARGET ⟨-2, 2.5, 5⟩) *
                Real.tan ((0.785 : ℝ) / 2) * (4/3)) / 2,
            (20 / 600 - 40 / 600) *
              (2 * Vec3.len (Vec3.sub CAMERA_TARGET ⟨-2, 2.5, 5⟩) *
                Real.tan ((0.785 : ℝ) / 2)) / 2,
            0⟩) ∧
    (update_camera_transform_system ⟨10, 20, 30, 40⟩
        ⟨⟨-2, 2.5, 5⟩, ⟨0, 0, 0, 1⟩⟩ ⟨800, 600⟩ ⟨0.785, 4/3⟩
        ⟨⟨-2, 2.5, 5⟩, ⟨0, 0, 0, 1⟩⟩).rotation = ⟨0, 0, 0, 1⟩ :=
  camera_offset_formula ⟨10, 20, 30, 40⟩ ⟨⟨-2, 2.5, 5⟩, ⟨0, 0, 0, 1⟩⟩
    ⟨800, 600⟩ ⟨0.785, 4/3⟩ ⟨⟨-2, 2.5, 5⟩, ⟨0, 0, 0, 1⟩⟩ rfl

/-- C6: when all four panel extents are zero and the window dimensions are
positive, the computed camera position equals the original camera position
exactly. -/
theorem camera_zero_occupancy
    (orig : Transform3) (window : WindowDims)
    (proj : PerspectiveProjection) (cam : Transform3)
    (hw : 0 < window.width) (hh : 0 < window.height) :
    (update_camera_transform_system ⟨0, 0, 0, 0⟩ orig window proj cam).translation =
      orig.translation := by
  show Vec3.add _ _ = _
  have hz : ((0 : ℝ) / window.width - 0 / window.width) *
        ((2 * Vec3.len (Vec3.sub CAMERA_TARGET orig.translation) *
          Real.tan (proj.fov * 0.5)) * proj.aspect) * 0.5 = 0 := by ring_nf
  have hz2 : ((0 : ℝ) / window.height - 0 / window.height) *
        (2 * Vec3.len (Vec3.sub CAMERA_TARGET orig.translation) *
          Real.tan (proj.fov * 0.5)) * 0.5 = 0 := by ring_nf
  calc Vec3.add orig.translation
        (Quat.mulVec3 cam.rotation
          ⟨((0 : ℝ) / window.width - 0 / window.width) *
              ((2 * Vec3.len (Vec3.sub CAMERA_TARGET orig.translation) *
                Real.tan (proj.fov * 0.5)) * proj.aspect) * 0.5,
            ((0 : ℝ) / window.height - 0 / window.height) *
              (2 * Vec3.len (Vec3.sub CAMERA_TARGET orig.translation) *
                Real.tan (proj.fov * 0.5)) * 0.5,
            0⟩)
      = Vec3.add orig.translation (Quat.mulVec3 cam.rotation Vec3.zero) := by
        rw [hz, hz2]; rfl
    _ = orig.translation := by rw [Quat.mulVec3_zero, Vec3.add_zero]

/-- Witness for C6: a concrete positive window and zero occupancy leave the
startup camera position unchanged. -/
theorem camera_zero_occupancy_witness :
    (update_camera_transform_system ⟨0, 0, 0, 0⟩
        ⟨⟨-2, 2.5, 5⟩, ⟨0.1, 0.2, 0.3, 0.9⟩⟩ ⟨800, 600⟩ ⟨0.785, 4/3⟩
        ⟨⟨7, 8, 9⟩, ⟨0.1, 0.2, 0.3, 0.9⟩⟩).translation = ⟨-2, 2.5, 5⟩ :=
  camera_zero_occupancy ⟨⟨-2, 2.5, 5⟩, ⟨0.1, 0.2, 0.3, 0.9⟩⟩ ⟨800, 600⟩
    ⟨0.785, 4/3⟩ ⟨⟨7, 8, 9⟩, ⟨0.1, 0.2, 0.3, 0.9⟩⟩ (by norm_num) (by norm_num)

/-! ## File catalog data model -/

/-- The `File` struct: a catalog entry. -/
structure File where
  path : String
  meshes : List String
  materials : List String
  deriving DecidableEq

/-- The `AppState` resource. -/
structure AppState where
  selected_file : Option Nat
  files : List File
  deriving DecidableEq

/-! ## Metadata loader -/

/-- `str::starts_with`, at character level. -/
def rustStartsWith (s pre : String) : Bool := pre.data.isPrefixOf s.data

/-- The tail returned by `String::split_off(n)` (the part from index `n`
on), at character level; the call site only uses it under a guard for the
2-byte ASCII literal `"OB"`, where byte index 2 and character index 2
agree. -/
def rustSplitOffTail (s : String) (n : Nat) : String := ⟨s.data.drop n⟩

/-- The name-cleaning step of `load_blender_metadata`:
`let should_remove = name_raw.starts_with("OB");` then
`if should_remove { name_raw.split_off(2) } else { name_raw }`. -/
def stripObjName (name_raw : String) : String :=
  let should_remove := rustStartsWith name_raw "OB"
  if should_remove then rustSplitOffTail name_raw 2 else name_raw

/-- One record with code `OB` in a `.blend` container; `name` is the raw
string returned by `obj.get("id").get_string("name")`. -/
structure BlendObj where
  name : String
  deriving DecidableEq

/-- A parsed `.blend` container, reduced to its `instances_with_code(b"OB")`
list, which is all the app reads from it. -/
structure Blend where
  objects : List BlendObj

/-- Oracle for `Blend::from_path`: `none` models the `Err` case (a path
that cannot be opened, or an invalid container). -/
def BlendDisk := String → Option Blend

/-- Shallow embedding of the `load_blender_metadata` system: it drains the
`LoadBlenderData` event list in order; for each event it indexes the
catalog (`app_state.files[*file_id]`, panicking when out of range), opens
the container (`.expect("error loading blend file")`, panicking on `Err`),
strips each object name and pushes it onto the entry's `meshes`. A panic
aborts the process; it is modelled as `Except.error` carrying the panic
message and the application state at the moment of the abort. -/
def load_blender_metadata (disk : BlendDisk) :
    List Nat → AppState → Except (String × AppState) AppState
  | [], app => .ok app
  | file_id :: rest, app =>
    match app.files[file_id]? with
    | none => .error ("index out of bounds", app)
    | some file =>
      match disk file.path with
      | none => .error ("error loading blend file", app)
      | some blend =>
        let names := blend.objects.map fun obj => stripObjName obj.name
        load_blender_metadata disk rest
          { app with
            files := app.files.set file_id { file with meshes := file.meshes ++ names } }

/-- C5: a raw object name is recorded with exactly its first two characters
removed when those two characters are `O`, `B`, and recorded unchanged when
the name does not start with the prefix literal; in particular `"OBCube"`
becomes `"Cube"` and `"Cube"` stays `"Cube"`. -/
theorem strip_obj_name_spec :
    (∀ t : List Char, stripObjName ⟨'O' :: 'B' :: t⟩ = ⟨t⟩) ∧
    (∀ s : String, rustStartsWith s "OB" = false → stripObjName s = s) ∧
    stripObjName "OBCube" = "Cube" ∧ stripObjName "Cube" = "Cube" := by
  refine ⟨?_, ?_, by decide, by decide⟩
  · intro t
    have hpre : rustStartsWith ⟨'O' :: 'B' :: t⟩ "OB" = true := by
      have hdata : "OB".data = ['O', 'B'] := rfl
      simp [rustStartsWith, hdata, List.isPrefixOf]
    simp [stripObjName, hpre, rustSplitOffTail]
  · intro s hs
    simp [stripObjName, hs]

/-- Witness for C5's conditional parts at concrete names. -/
theorem strip_obj_name_spec_witness :
    stripObjName ⟨'O' :: 'B' :: ['X']⟩ = ⟨['X']⟩ ∧ stripObjName "Plane" = "Plane" :=
  ⟨strip_obj_name_spec.1 ['X'], strip_obj_name_spec.2.1 "Plane" (by decide)⟩

/-- C8: when the metadata loader is triggered for an entry whose path the
container reader cannot open or parse, the system aborts (the `.expect`
panic), and the state carried at the abort is the unmodified input state —
in particular the entry's object-name list is untouched by the failed
load. -/
theorem metadata_load_failure_aborts
    (disk : BlendDisk) (app : AppState) (file_id : Nat) (file : File)
    (hfile : app.files[file_id]? = some file)
    (hdisk : disk file.path = none) :
    load_blender_metadata disk [file_id] app =
      .error ("error loading blend file", app) := by
  simp only [load_blender_metadata, hfile, hdisk]

/-- Witness for C8: a disk on which no path opens aborts the load of a
one-entry catalog and leaves the state untouched. -/
theorem metadata_load_failure_aborts_witness :
    load_blender_metadata (fun _ => none) [0]
        ⟨none, [⟨"bad.blend", [], []⟩]⟩ =
      .error ("error loading blend file", ⟨none, [⟨"bad.blend", [], []⟩]⟩) :=
  metadata_load_failure_aborts (fun _ => none) ⟨none, [⟨"bad.blend", [], []⟩]⟩
    0 ⟨"bad.blend", [], []⟩ rfl rfl

/-- C9: triggering the metadata loader twice for the same file index
appends the discovered (stripped) object names a second time: starting from
an entry with an empty object-name list, two successful loads of a
container with `k` objects leave the entry's list equal to the name list
concatenated with itself, of length `2k`, with each name appearing exactly
twice when the container's stripped names are distinct. -/
theorem metadata_reload_duplicates
    (disk : BlendDisk) (app : AppState) (file_id : Nat) (file : File) (blend : Blend)
    (hfile : app.files[file_id]? = some file)
    (hempty : file.meshes = [])
    (hdisk : disk file.path = some blend) :
    ∃ app', load_blender_metadata disk [file_id, file_id] app = .ok app' ∧
      app'.files[file_id]? =
        some { file with meshes :=
          (blend.objects.map fun obj => stripObjName obj.name) ++
            (blend.objects.map fun obj => stripObjName obj.name) } ∧
      ((blend.objects.map fun obj => stripObjName obj.name) ++
          (blend.objects.map fun obj => stripObjName obj.name)).length =
        2 * blend.objects.length ∧
      ((blend.objects.map fun obj => stripObjName obj.name).Nodup →
        ∀ x ∈ blend.objects.map fun obj => stripObjName obj.name,
          ((blend.objects.map fun obj => stripObjName obj.name) ++
              (blend.objects.map fun obj => stripObjName obj.name)).count x = 2) := by
  have hlt : file_id < app.files.length := by
    by_contra hge
    rw [List.getElem?_eq_none (Nat.le_of_not_lt hge)] at hfile
    exact Option.noConfusion hfile
  set names := blend.objects.map fun obj => stripObjName obj.name with hnames
  set file1 : File := { file with meshes := file.meshes ++ names } with hfile1
  have hget1 : (app.files.set file_id file1)[file_id]? = some file1 :=
    List.getElem?_set_eq_of_lt file1 hlt
  set app1 : AppState := { app with files := app.files.set file_id file1 } with happ1
  have hlt1 : file_id < app1.files.length := by
    simpa [happ1] using hlt
  set file2 : File := { file1 with meshes := file1.meshes ++ names } with hfile2
  have hget2 : (app1.files.set file_id file2)[file_id]? = some file2 :=
    List.getElem?_set_eq_of_lt file2 hlt1
  refine ⟨{ app1 with files := app1.files.set file_id file2 }, ?_, ?_, ?_, ?_⟩
  · simp only [load_blender_metadata, hfile, hdisk]
    simp only [← hnames, ← hfile1, ← happ1]
    have hpath1 : file1.path = file.path := rfl
    simp only [load_blender_metadata, hget1, hpath1, hdisk, ← hfile2]
  · have : file2 = { file with meshes := names ++ names } := by
      simp [hfile2, hfile1, hempty]
    rw [← this]
    exact hget2
  · simp [Nat.two_mul, hnames]
  · intro hnodup x hx
    rw [List.count_append, List.count_eq_one_of_mem hnodup hx]

/-- Witness for C9: a two-object container (`OBCube`, `OBSuzanne`) loaded
twice into a fresh `demo.blend` entry. -/
theorem metadata_reload_duplicates_witness :
    ∃ app', load_blender_metadata (fun _ => some ⟨[⟨"OBCube"⟩, ⟨"OBSuzanne"⟩]⟩)
        [0, 0] ⟨none, [⟨"demo.blend", [], []⟩]⟩ = .ok app' ∧
      app'.files[0]? =
        some { path := "demo.blend",
               meshes :=
                 (([⟨"OBCube"⟩, ⟨"OBSuzanne"⟩] : List BlendObj).map fun obj =>
                     stripObjName obj.name) ++
                   (([⟨"OBCube"⟩, ⟨"OBSuzanne"⟩] : List BlendObj).map fun obj =>
                     stripObjName obj.name),
               materials := [] } ∧
      ((([⟨"OBCube"⟩, ⟨"OBSuzanne"⟩] : List BlendObj).map fun obj =>
            stripObjName obj.name) ++
          (([⟨"OBCube"⟩, ⟨"OBSuzanne"⟩] : List BlendObj).map fun obj =>
            stripObjName obj.name)).length =
        2 * ([⟨"OBCube"⟩, ⟨"OBSuzanne"⟩] : List BlendObj).length ∧
      ((([⟨"OBCube"⟩, ⟨"OBSuzanne"⟩] : List BlendObj).map fun obj =>
            stripObjName obj.name).Nodup →
        ∀ x ∈ ([⟨"OBCube"⟩, ⟨"OBSuzanne"⟩] : List BlendObj).map fun obj =>
            stripObjName obj.name,
          ((([⟨"OBCube"⟩, ⟨"OBSuzanne"⟩] : List BlendObj).map fun obj =>
                stripObjName obj.name) ++
              (([⟨"OBCube"⟩, ⟨"OBSuzanne"⟩] : List BlendObj).map fun obj =>
                stripObjName obj.name)).count x = 2) :=
  metadata_reload_duplicates (fun _ => some ⟨[⟨"OBCube"⟩, ⟨"OBSuzanne"⟩]⟩)
    ⟨none, [⟨"demo.blend", [], []⟩]⟩ 0 ⟨"demo.blend", [], []⟩
    ⟨[⟨"OBCube"⟩, ⟨"OBSuzanne"⟩]⟩ rfl rfl rfl

/-! ## UI system -/

/-- A path returned by the native file picker; `to_str` models
`PathBuf::to_str()`, `none` when the path is not valid UTF-8. -/
structure PathBuf where
  to_str : Option String

/-- The per-frame click state of the egui widgets: which file buttons and
which per-file mesh buttons report `clicked()`, whether the "Select file"
button does, and what the blocking file dialog returns in that case
(`none` models a dismissed dialog). -/
structure UiInput where
  file_clicked : Nat → Bool
  mesh_clicked : Nat → Nat → Bool
  select_file_clicked : Bool
  picked : Option (List PathBuf)

/-- Accumulator of the left panel's file loop: the local `selected_file`
variable (restarted at `None` each frame) and the `LoadBlenderData` and
`SpawnEvent` events written so far this frame. -/
structure LoopSt where
  sel : Option Nat
  loads : List Nat
  spawns : List (Nat × Nat)
  deriving DecidableEq

/-- The left panel's `for (index, file) in app_state.files.iter().enumerate()`
body from index `idx` on, threading the loop state. `origSel` is
`app_state.selected_file`, which the loop reads but never writes;
`selected_id` is its `unwrap_or(0)`. -/
def uiFileLoop (input : UiInput) (origSel : Option Nat) :
    Nat → List File → LoopSt → LoopSt
  | _, [], st => st
  | idx, f :: rest, st =>
    let selected_id := origSel.getD 0
    let is_selected := origSel.isSome && (selected_id == idx)
    let st1 :=
      if input.file_clicked idx then
        if is_selected then { st with sel := none }
        else { st with sel := some idx, loads := st.loads ++ [idx] }
      else st
    let st2 :=
      { st1 with
        spawns := st1.spawns ++
          ((List.range f.meshes.length).filter (fun m => input.mesh_clicked idx m)).map
            fun m => (idx, m) }
    uiFileLoop input origSel (idx + 1) rest st2

/-- Shallow embedding of `ui_example_system`'s state effects: the left
panel's file loop produces the frame's load and spawn events and the local
`selected_file`; then
`if selected_file != original_file { app_state.selected_file = selected_file }`
runs; then the right panel's "Select file" handler appends one catalog
entry per picked path that converts to UTF-8 (`PathBuf::to_str`), skipping
the rest. The egui panel extents are layout output and are not modelled
here. Returns the updated state, the load events, and the spawn events. -/
def ui_example_system (input : UiInput) (app : AppState) :
    AppState × List Nat × List (Nat × Nat) :=
  let original_file := app.selected_file
  let st := uiFileLoop input app.selected_file 0 app.files ⟨none, [], []⟩
  let sel1 := if st.sel ≠ original_file then st.sel else app.selected_file
  let files1 :=
    if input.select_file_clicked then
      match input.picked with
      | some file_path_buffers =>
        app.files ++
          (file_path_buffers.filterMap PathBuf.to_str).map
            fun file_path => { path := file_path, meshes := [], materials := [] }
      | none => app.files
    else app.files
  ({ selected_file := sel1, files := files1 }, st.loads, st.spawns)

/-- C3 (code bug): on a frame with no clicks at all, the selection should
be left untouched — the source's own comment reads "Update the state if we
made changes" — but the local `selected_file` variable restarts at `None`
each frame, so the final `selected_file != original_file` test sees
`None ≠ Some 0` and clears an existing selection. -/
theorem selection_cleared_without_click :
    (ui_example_system ⟨fun _ => false, fun _ _ => false, false, none⟩
        ⟨some 0, [⟨"demo.blend", ["Cube"], []⟩]⟩).1.selected_file = none ∧
    (⟨some 0, [⟨"demo.blend", ["Cube"], []⟩]⟩ : AppState).selected_file = some 0 :=
  ⟨rfl, rfl⟩

/-- Behaviour of the file loop on a frame whose only file-button click is
on index `i`: for a stretch of indices not containing `i` the local
selection and load list are untouched, and for a stretch containing `i`
the click handler fires exactly once, at `i`. -/
lemma uiFileLoop_single_click (input : UiInput) (origSel : Option Nat) (i : Nat)
    (hclick : ∀ j, input.file_clicked j = decide (j = i)) :
    ∀ (files : List File) (idx : Nat) (st : LoopSt),
      ((idx ≤ i ∧ i < idx + files.length) →
        (uiFileLoop input origSel idx files st).sel =
          (if origSel.isSome && (origSel.getD 0 == i) then none else some i) ∧
        (uiFileLoop input origSel idx files st).loads =
          st.loads ++ (if origSel.isSome && (origSel.getD 0 == i) then [] else [i])) ∧
      (¬ (idx ≤ i ∧ i < idx + files.length) →
        (uiFileLoop input origSel idx files st).sel = st.sel ∧
        (uiFileLoop input origSel idx files st).loads = st.loads) := by
  intro files
  induction files with
  | nil =>
    intro idx st
    refine ⟨fun h => ?_, fun _ => ⟨rfl, rfl⟩⟩
    exact absurd h (by simp only [List.length_nil]; omega)
  | cons f rest ih =>
    intro idx st
    by_cases hidx : idx = i
    · subst hidx
      have hcl : input.file_clicked idx = true := by
        rw [hclick idx]; simp
      refine ⟨fun _ => ?_,
        fun h => absurd ⟨Nat.le_refl idx, by simp only [List.length_cons]; omega⟩ h⟩
      simp only [uiFileLoop, hcl, if_true]
      by_cases hsel : (origSel.isSome && (origSel.getD 0 == idx)) = true
      · rw [if_pos hsel, if_pos hsel, if_pos hsel]
        refine ⟨((ih (idx + 1) _).2 (by omega)).1, ?_⟩
        rw [((ih (idx + 1) _).2 (by omega)).2]
        simp
      · rw [if_neg hsel, if_neg hsel, if_neg hsel]
        refine ⟨((ih (idx + 1) _).2 (by omega)).1, ?_⟩
        rw [((ih (idx + 1) _).2 (by omega)).2]
    · have hcl : input.file_clicked idx = false := by
        rw [hclick idx]; simp [hidx]
      constructor
      · intro h
        have hrange : idx + 1 ≤ i ∧ i < (idx + 1) + rest.length := by
          simp only [List.length_cons] at h; omega
        simp only [uiFileLoop, hcl, Bool.false_eq_true, if_false]
        refine ⟨((ih (idx + 1) _).1 hrange).1, ?_⟩
        rw [((ih (idx + 1) _).1 hrange).2]
      · intro h
        have hrange : ¬ (idx + 1 ≤ i ∧ i < (idx + 1) + rest.length) := by
          intro hc
          exact h ⟨by omega, by simp only [List.length_cons]; omega⟩
        simp only [uiFileLoop, hcl, Bool.false_eq_true, if_false]
        refine ⟨((ih (idx + 1) _).2 hrange).1, ?_⟩
        rw [((ih (idx + 1) _).2 hrange).2]

/-- The loop's `is_selected` test at index `i` agrees with
`origSel = some i`. -/
lemma is_selected_iff (origSel : Option Nat) (i : Nat) :
    (origSel.isSome && (origSel.getD 0 == i)) = true ↔ origSel = some i := by
  cases origSel with
  | none => simp
  | some j => simp [Nat.beq_eq]

/-- C4: on a frame whose only file-button click is on a valid catalog
index `i` (and no other file button is clicked), the toggle contract
holds: when `i` is the currently selected index, the selection is cleared
to `None` and no load-metadata event is emitted; otherwise the selection
becomes `some i`, replacing any prior selection, and exactly one
load-metadata event for `i` is emitted. -/
theorem selection_toggle_contract (app : AppState) (input : UiInput) (i : Nat)
    (hi : i < app.files.length)
    (hclick : ∀ j, input.file_clicked j = decide (j = i)) :
    (app.selected_file = some i →
      (ui_example_system input app).1.selected_file = none ∧
      (ui_example_system input app).2.1 = []) ∧
    (app.selected_file ≠ some i →
      (ui_example_system input app).1.selected_file = some i ∧
      (ui_example_system input app).2.1 = [i]) := by
  have hloop := (uiFileLoop_single_click input app.selected_file i hclick
    app.files 0 ⟨none, [], []⟩).1 ⟨Nat.zero_le i, by omega⟩
  constructor
  · intro hsel
    have hb : (app.selected_file.isSome && (app.selected_file.getD 0 == i)) = true :=
      (is_selected_iff app.selected_file i).mpr hsel
    rw [hb] at hloop
    simp only [if_true] at hloop
    constructor
    · show (if _ ≠ _ then _ else _) = _
      rw [hloop.1, hsel]
      simp
    · show (uiFileLoop input app.selected_file 0 app.files ⟨none, [], []⟩).loads = []
      rw [hloop.2]
      rfl
  · intro hsel
    have hb : (app.selected_file.isSome && (app.selected_file.getD 0 == i)) = false := by
      by_contra hb
      exact hsel ((is_selected_iff app.selected_file i).mp
        (Bool.eq_true_of_ne_false fun hf => hb hf))
    rw [hb] at hloop
    simp only [Bool.false_eq_true, if_false] at hloop
    constructor
    · show (if _ ≠ _ then _ else _) = _
      rw [hloop.1]
      rw [if_pos (fun hc => hsel hc.symm)]
    · show (uiFileLoop input app.selected_file 0 app.files ⟨none, [], []⟩).loads = [i]
      rw [hloop.2]
      rfl

/-- Witness for C4: a one-file catalog with nothing selected; clicking file
0 selects it and emits exactly one load event. -/
theorem selection_toggle_contract_witness :
    ((⟨none, [⟨"demo.blend", [], []⟩]⟩ : AppState).selected_file = some 0 →
      (ui_example_system ⟨fun j => decide (j = 0), fun _ _ => false, false, none⟩
          ⟨none, [⟨"demo.blend", [], []⟩]⟩).1.selected_file = none ∧
      (ui_example_system ⟨fun j => decide (j = 0), fun _ _ => false, false, none⟩
          ⟨none, [⟨"demo.blend", [], []⟩]⟩).2.1 = []) ∧
    ((⟨none, [⟨"demo.blend", [], []⟩]⟩ : AppState).selected_file ≠ some 0 →
      (ui_example_system ⟨fun j => decide (j = 0), fun _ _ => false, false, none⟩
          ⟨none, [⟨"demo.blend", [], []⟩]⟩).1.selected_file = some 0 ∧
      (ui_example_system ⟨fun j => decide (j = 0), fun _ _ => false, false, none⟩
          ⟨none, [⟨"demo.blend", [], []⟩]⟩).2.1 = [0]) :=
  selection_toggle_contract ⟨none, [⟨"demo.blend", [], []⟩]⟩
    ⟨fun j => decide (j = 0), fun _ _ => false, false, none⟩ 0
    (by decide) (fun _ => rfl)

/-- C10: when "Select file" is clicked and the picker returns a path list,
exactly those paths that convert to valid UTF-8 are appended to the
catalog, in picker order, each as a new entry with empty mesh and material
lists; a non-UTF-8 path is skipped with no entry created. -/
theorem picker_appends_utf8_paths (app : AppState) (input : UiInput)
    (bufs : List PathBuf)
    (hsel : input.select_file_clicked = true)
    (hpick : input.picked = some bufs) :
    (ui_example_system input app).1.files =
      app.files ++ (bufs.filterMap PathBuf.to_str).map
        fun file_path => { path := file_path, meshes := [], materials := [] } := by
  simp only [ui_example_system, hsel, hpick, if_true]

/-- Witness for C10: a picker result with two UTF-8 paths around one
non-UTF-8 path appends exactly two entries, in order. -/
theorem picker_appends_utf8_paths_witness :
    (ui_example_system
        ⟨fun _ => false, fun _ _ => false, true,
          some [⟨some "a.blend"⟩, ⟨none⟩, ⟨some "b.blend"⟩]⟩
        ⟨none, []⟩).1.files =
      [] ++ (([⟨some "a.blend"⟩, ⟨none⟩, ⟨some "b.blend"⟩] :
          List PathBuf).filterMap PathBuf.to_str).map
        fun file_path => { path := file_path, meshes := [], materials := [] } :=
  picker_appends_utf8_paths ⟨none, []⟩
    ⟨fun _ => false, fun _ _ => false, true,
      some [⟨some "a.blend"⟩, ⟨none⟩, ⟨some "b.blend"⟩]⟩
    [⟨some "a.blend"⟩, ⟨none⟩, ⟨some "b.blend"⟩] rfl rfl

/-! ## Spawn controller -/

/-- A world entity as far as the spawn controller observes it: either an
entity tagged `BlenderPreviewObject`, carrying the mesh and material asset
paths its `PbrBundle` requested, or any other entity (camera, light, ...). -/
inductive Entity where
  | preview (mesh : String) (material : String)
  | other (id : Nat)
  deriving DecidableEq

/-- Whether an entity carries the `BlenderPreviewObject` tag. -/
def Entity.isPreview : Entity → Bool
  | .preview _ _ => true
  | .other _ => false

/-- The `PbrBundle` spawned for one `SpawnEvent(file_id, mesh_id)`: the
mesh asset is requested at `file.path + "#ME" + mesh_name` and the
material asset at `file.path + "#MABlue"`; `none` models the panic on an
out-of-range file or mesh index. -/
def spawnEntityOf (app : AppState) (ev : Nat × Nat) : Option Entity :=
  match app.files[ev.1]? with
  | none => none
  | some file =>
    match file.meshes[ev.2]? with
    | none => none
    | some mesh_name =>
      some (.preview (file.path ++ "#ME" ++ mesh_name) (file.path ++ "#MABlue"))

/-- The spawn commands queued by the event loop of `test_spawn`, one
preview entity per event, in event order. -/
def spawnedPreviews (app : AppState) : List (Nat × Nat) → Option (List Entity)
  | [] => some []
  | ev :: rest =>
    match spawnEntityOf app ev with
    | none => none
    | some e =>
      match spawnedPreviews app rest with
      | none => none
      | some es => some (e :: es)

/-- Shallow embedding of one run of the `test_spawn` system. Bevy applies
`Commands` at the next sync point, so the `blender_objects` query is a
snapshot taken at the start of the run: every event's despawn loop targets
exactly the preview entities alive when the run began (despawning one of
them twice is idempotent), and each event queues one fresh preview spawn.
The net world after the commands apply is therefore the non-preview
entities followed by one spawned preview per event; an empty event queue
leaves the world untouched (the early `return`). -/
def test_spawn (app : AppState) (world : List Entity)
    (events : List (Nat × Nat)) : Option (List Entity) :=
  if events.isEmpty then some world
  else
    match spawnedPreviews app events with
    | none => none
    | some spawned => some (world.filter (fun e => !e.isPreview) ++ spawned)

/-- A sequence of `test_spawn` runs, one event per run — the "N spawn
events in sequence" scenario, each event observed in its own frame. -/
def test_spawn_seq (app : AppState) (world : List Entity) :
    List (Nat × Nat) → Option (List Entity)
  | [] => some world
  | ev :: rest =>
    match test_spawn app world [ev] with
    | none => none
    | some world1 => test_spawn_seq app world1 rest

/-- Clearing the preview tag and then filtering for it yields nothing. -/
lemma filter_preview_cleared (w : List Entity) :
    (w.filter fun e => !e.isPreview).filter (fun e => e.isPreview) = [] := by
  induction w with
  | nil => rfl
  | cons e rest ih => cases e <;> simp [Entity.isPreview, ih]

/-- Every entity produced by `spawnEntityOf` is preview-tagged. -/
lemma spawnEntityOf_isPreview (app : AppState) (ev : Nat × Nat) (e : Entity)
    (h : spawnEntityOf app ev = some e) : e.isPreview = true := by
  unfold spawnEntityOf at h
  split at h
  · exact Option.noConfusion h
  · split at h
    · exact Option.noConfusion h
    · cases h
      rfl

/-- A successful single-event run leaves exactly one live preview. -/
lemma test_spawn_single_preview (app : AppState) (world : List Entity)
    (ev : Nat × Nat) (world1 : List Entity)
    (h : test_spawn app world [ev] = some world1) :
    (world1.filter fun e => e.isPreview).length = 1 := by
  unfold test_spawn at h
  simp only [List.isEmpty_cons, if_false, Bool.false_eq_true] at h
  cases he : spawnEntityOf app ev with
  | none =>
    rw [show spawnedPreviews app [ev] = none by
      simp only [spawnedPreviews, he]] at h
    exact Option.noConfusion h
  | some e =>
    rw [show spawnedPreviews app [ev] = some [e] by
      simp only [spawnedPreviews, he]] at h
    cases h
    rw [List.filter_append, filter_preview_cleared]
    simp [spawnEntityOf_isPreview app ev e he]

/-- C2: processing any nonempty sequence of spawn events, one run each
(indices valid, so every run succeeds), leaves exactly one preview-tagged
entity live, whatever the starting world contained. -/
theorem spawn_seq_single_preview (app : AppState) (events : List (Nat × Nat)) :
    ∀ (world world' : List Entity), events ≠ [] →
      test_spawn_seq app world events = some world' →
      (world'.filter fun e => e.isPreview).length = 1 := by
  induction events with
  | nil => intro _ _ hne _; exact absurd rfl hne
  | cons ev rest ih =>
    intro world world' _ hok
    unfold test_spawn_seq at hok
    cases h1 : test_spawn app world [ev] with
    | none => rw [h1] at hok; exact Option.noConfusion hok
    | some world1 =>
      rw [h1] at hok
      cases rest with
      | nil =>
        cases hok
        exact test_spawn_single_preview app world ev world' h1
      | cons ev2 rest2 =>
        exact ih world1 world' (List.cons_ne_nil ev2 rest2) hok

/-- Witness for C2: two sequential spawns of `demo.blend`'s only mesh,
starting from a world holding a camera-like entity and a stale preview,
end with exactly one live preview. -/
theorem spawn_seq_single_preview_witness :
    ∃ world', test_spawn_seq ⟨none, [⟨"demo.blend", ["Suzanne"], []⟩]⟩
        [Entity.other 0, Entity.preview "stale" "stale"]
        [(0, 0), (0, 0)] = some world' ∧
      (world'.filter fun e => e.isPreview).length = 1 := by
  refine ⟨[Entity.other 0,
    Entity.preview "demo.blend#MESuzanne" "demo.blend#MABlue"], rfl, ?_⟩
  exact spawn_seq_single_preview ⟨none, [⟨"demo.blend", ["Suzanne"], []⟩]⟩
    [(0, 0), (0, 0)]
    [Entity.other 0, Entity.preview "stale" "stale"]
    [Entity.other 0, Entity.preview "demo.blend#MESuzanne" "demo.blend#MABlue"]
    (by decide) rfl

/-- C7: a spawn event with valid indices makes the controller request the
mesh asset at the file's path concatenated with `"#ME"` and the mesh name,
and the material asset at the file's path concatenated with `"#MABlue"`;
the run replaces the old previews with exactly that one entity. -/
theorem spawn_asset_paths (app : AppState) (world : List Entity)
    (fid mid : Nat) (file : File) (mesh_name : String)
    (hfile : app.files[fid]? = some file)
    (hmesh : file.meshes[mid]? = some mesh_name) :
    test_spawn app world [(fid, mid)] =
      some ((world.filter fun e => !e.isPreview) ++
        [.preview (file.path ++ "#ME" ++ mesh_name) (file.path ++ "#MABlue")]) := by
  unfold test_spawn
  simp only [List.isEmpty_cons, Bool.false_eq_true, if_false]
  rw [show spawnedPreviews app [(fid, mid)] =
      some [.preview (file.path ++ "#ME" ++ mesh_name) (file.path ++ "#MABlue")] by
    simp only [spawnedPreviews, spawnEntityOf, hfile, hmesh]]

/-- Witness for C7: spawning mesh 0 of `demo.blend` requests
`demo.blend#MESuzanne` and `demo.blend#MABlue`. -/
theorem spawn_asset_paths_witness :
    test_spawn ⟨none, [⟨"demo.blend", ["Suzanne"], []⟩]⟩ [] [(0, 0)] =
      some ((([] : List Entity).filter fun e => !e.isPreview) ++
        [.preview ("demo.blend" ++ "#ME" ++ "Suzanne") ("demo.blend" ++ "#MABlue")]) :=
  spawn_asset_paths ⟨none, [⟨"demo.blend", ["Suzanne"], []⟩]⟩ [] 0 0
    ⟨"demo.blend", ["Suzanne"], []⟩ "Suzanne" rfl rfl

end BlenderLauncher
